import Mathlib

/-!
# Verification of the Broker replicated-store subsystem fragment

Shallow embedding of the code under `src/` of the `broker` repository:

* `src/src/error.cc` — the `ec` error-code enumeration, `error` values and
  their conversion to and from the `data` universe;
* `src/src/detail/store_actor.cc` — the store actor's event-vector
  construction (`emit_insert_event` &c.) and down-message handling;
* `src/include/broker/store.hh` — the frontend modifiers (`increment`,
  `pop`, `insert_into`, ...) and the `add`/`subtract` commands they send.

Parts of the repository the claims depend on but that are not present under
`src/` (the `data` tagged union from `data.hh`, the `endpoint_info`↔`data`
conversion from `endpoint_info.cc`, the backend `subtract` semantics from
`data.cc`) are modelled from the specification; each such definition carries
a doc comment starting `Modelled from the spec:`.
-/

namespace Broker

/-- The `ec` error-code enumeration of `src/src/error.cc` (`ec_names` table,
indices 0..20 in declaration order). -/
inductive ec where
  | none
  | unspecified
  | peer_incompatible
  | peer_invalid
  | peer_unavailable
  | peer_disconnect_during_handshake
  | peer_timeout
  | master_exists
  | no_such_master
  | no_such_key
  | request_timeout
  | type_clash
  | invalid_data
  | backend_failure
  | stale_data
  | cannot_open_file
  | cannot_write_file
  | invalid_topic_key
  | end_of_file
  | invalid_tag
  | invalid_status
deriving DecidableEq, Repr

/-- Numeric value of an `ec` code (`static_cast<uint8_t>(code)`). -/
def ec.toNat : ec → Nat
  | .none => 0
  | .unspecified => 1
  | .peer_incompatible => 2
  | .peer_invalid => 3
  | .peer_unavailable => 4
  | .peer_disconnect_during_handshake => 5
  | .peer_timeout => 6
  | .master_exists => 7
  | .no_such_master => 8
  | .no_such_key => 9
  | .request_timeout => 10
  | .type_clash => 11
  | .invalid_data => 12
  | .backend_failure => 13
  | .stale_data => 14
  | .cannot_open_file => 15
  | .cannot_write_file => 16
  | .invalid_topic_key => 17
  | .end_of_file => 18
  | .invalid_tag => 19
  | .invalid_status => 20

/-- The `ec_names` table of `src/src/error.cc` (lines 23-45). -/
def ec_names : List String :=
  ["none", "unspecified", "peer_incompatible", "peer_invalid",
   "peer_unavailable", "peer_disconnect_during_handshake", "peer_timeout",
   "master_exists", "no_such_master", "no_such_key", "request_timeout",
   "type_clash", "invalid_data", "backend_failure", "stale_data",
   "cannot_open_file", "cannot_write_file", "invalid_topic_key",
   "end_of_file", "invalid_tag", "invalid_status"]

/-- `static_cast<ec>(i)` for an index into `ec_names`; indices outside the
table never arise in the embedded code. -/
def ecOfIdx : Nat → ec
  | 0 => .none
  | 1 => .unspecified
  | 2 => .peer_incompatible
  | 3 => .peer_invalid
  | 4 => .peer_unavailable
  | 5 => .peer_disconnect_during_handshake
  | 6 => .peer_timeout
  | 7 => .master_exists
  | 8 => .no_such_master
  | 9 => .no_such_key
  | 10 => .request_timeout
  | 11 => .type_clash
  | 12 => .invalid_data
  | 13 => .backend_failure
  | 14 => .stale_data
  | 15 => .cannot_open_file
  | 16 => .cannot_write_file
  | 17 => .invalid_topic_key
  | 18 => .end_of_file
  | 19 => .invalid_tag
  | _ => .invalid_status

/-- `to_string(ec code)` of `src/src/error.cc` (lines 150-154):
`ec_names[static_cast<uint8_t>(code)]`. -/
def to_string_ec (code : ec) : String :=
  (ec_names.get? code.toNat).getD ""

/-- `std::find_if(begin, end, predicate)` over a name table: the index of
the first name equal to `str`, if any. -/
def find_name : List String → String → Option Nat
  | [], _ => Option.none
  | n :: ns, str =>
    if n = str then Option.some 0 else (find_name ns str).map (· + 1)

/-- `convert(const std::string&, ec&)` of `src/src/error.cc` (lines 156-165):
finds the first matching name; fails when the match is at index 0 (`"none"`)
or there is no match, otherwise yields the index as an `ec`. -/
def convert_string_ec (str : String) : Option ec :=
  match find_name ec_names str with
  | Option.none => Option.none
  | Option.some i => if i = 0 then Option.none else Option.some (ecOfIdx i)

/-- Modelled from the spec: `endpoint_info` (the network-level context an
error may carry, §7 "optional context `(endpoint_info, description)`").
Its definition lives in `endpoint_info.hh`, which is not under `src/`;
only its identity as a value matters here, so it is modelled as a wrapper
around a node identifier. -/
structure endpoint_info where
  node : String
deriving DecidableEq, Repr

/-- Modelled from the spec: the `data` tagged union of §3 — "`none`, boolean,
count (unsigned integer), integer (signed), real (double), string, address,
subnet, port, timestamp (absolute), timespan (duration), enum value (named
tag), set of values, table (mapping value→value), vector (ordered sequence)".
`data.hh` is not under `src/`. Timestamps and timespans are in nanoseconds;
`real` (an IEEE double in the source) is modelled as a rational-free integer
payload since no claim computes with reals; sets keep their elements as a
list and tables their bindings as an association list. -/
inductive data where
  | nil
  | boolean (b : Bool)
  | count (n : Nat)
  | integer (i : Int)
  | real (r : Int)
  | str (s : String)
  | address (a : String)
  | subnet (s : String)
  | port (p : Nat)
  | timestamp (t : Int)
  | timespan (d : Int)
  | enum (name : String)
  | set (elems : List data)
  | table (entries : List (data × data))
  | vec (xs : List data)
deriving Repr

mutual

/-- Structural equality of `data` values (§3: "Values compare by structural
equality"), used by the element-removal cases of `subtract`. -/
def data.beq : data → data → Bool
  | .nil, .nil => true
  | .boolean a, .boolean b => a == b
  | .count a, .count b => a == b
  | .integer a, .integer b => a == b
  | .real a, .real b => a == b
  | .str a, .str b => a == b
  | .address a, .address b => a == b
  | .subnet a, .subnet b => a == b
  | .port a, .port b => a == b
  | .timestamp a, .timestamp b => a == b
  | .timespan a, .timespan b => a == b
  | .enum a, .enum b => a == b
  | .set as, .set bs => beqList as bs
  | .table as, .table bs => beqPairs as bs
  | .vec as, .vec bs => beqList as bs
  | _, _ => false

/-- Pointwise `data.beq` on lists. -/
def beqList : List data → List data → Bool
  | [], [] => true
  | a :: as, b :: bs => data.beq a b && beqList as bs
  | _, _ => false

/-- Pointwise `data.beq` on binding lists. -/
def beqPairs : List (data × data) → List (data × data) → Bool
  | [], [] => true
  | (a₁, a₂) :: as, (b₁, b₂) :: bs =>
    data.beq a₁ b₁ && data.beq a₂ b₂ && beqPairs as bs
  | _, _ => false

end

/-- Modelled from the spec: `convert(const endpoint_info&, data&)` lives in
`endpoint_info.cc`, which is not under `src/`. §7 requires the error↔data
round-trip to be faithful, so the conversion is modelled as an injective
encoding of the `endpoint_info` into a one-slot vector. -/
def endpoint_info_to_data (x : endpoint_info) : data :=
  .vec [.str x.node]

/-- Modelled from the spec: the inverse conversion `data` → `endpoint_info`
(`convertible_to_endpoint_info` / `convert` in `endpoint_info.cc`, not under
`src/`); succeeds exactly on encodings produced by `endpoint_info_to_data`. -/
def data_to_endpoint_info : data → Option endpoint_info
  | .vec [.str s] => Option.some ⟨s⟩
  | _ => Option.none

/-- `can_convert_to<endpoint_info>` on a `data` value. -/
def convertible_to_endpoint_info (x : data) : Bool :=
  (data_to_endpoint_info x).isSome

/-- One slot of a native (CAF) error's context message. The constructors in
`src/src/error.cc` only ever build the empty context, `(description)` or
`(endpoint_info, description)`, but `error::message()` and `error::context()`
pattern-match on the shape, so the context is kept as a list of slots. -/
inductive ctx_slot where
  | ep (info : endpoint_info)
  | txt (s : String)
deriving DecidableEq, Repr

/-- A broker `error` value as built by the constructors of
`src/src/error.cc`. The native CAF representation treats a numeric code of 0
as the absence of an error, so a valid error always carries a code other
than `ec::none`; all constructors in `error.cc` take an `ec`, so the
category is always the `ec` category. -/
inductive error where
  | invalid
  | mk (code : ec) (ctx : List ctx_slot)
deriving DecidableEq, Repr

/-- `error::error()` — the default, invalid error. -/
def error.default : error := .invalid

/-- `error::error(ec code)`; the native constructor yields the null error
when the numeric code is 0 (`ec::none`). Also `make_error(ec)`. -/
def error.ofCode (code : ec) : error :=
  if code = .none then .invalid else .mk code []

/-- `error::error(ec code, std::string description)`; context
`(description)`. Also `make_error(ec, std::string)`. -/
def error.ofCodeDesc (code : ec) (description : String) : error :=
  if code = .none then .invalid else .mk code [.txt description]

/-- `error::error(ec code, endpoint_info info, std::string description)`
(lines 65-68); context `(endpoint_info, description)`. Also
`make_error(ec, endpoint_info, std::string)` (lines 146-148). -/
def error.ofCodeInfoDesc (code : ec) (info : endpoint_info)
    (description : String) : error :=
  if code = .none then .invalid else .mk code [.ep info, .txt description]

/-- The error values reachable through the public constructors: the invalid
error, or a valid error (code ≠ `none`) whose context has one of the three
constructed shapes. -/
def error.wf : error → Bool
  | .invalid => true
  | .mk code [] => code != .none
  | .mk code [.txt _] => code != .none
  | .mk code [.ep _, .txt _] => code != .none
  | .mk _ _ => false

/-- `error::valid()` (lines 96-98): whether the native error is non-null. -/
def error.valid : error → Bool
  | .invalid => false
  | .mk _ _ => true

/-- `error::message()` (lines 108-116): a typed view of the native context
as `(endpoint_info, string)` yields its second element; a view as
`(string)` yields its only element; any other shape yields `nullptr`. -/
def error.message : error → Option String
  | .mk _ [.ep _, .txt s] => Option.some s
  | .mk _ [.txt s] => Option.some s
  | _ => Option.none

/-- `error::context()` (lines 118-124): only a typed view of the native
context as exactly `(endpoint_info)` yields a non-null pointer. -/
def error.context : error → Option endpoint_info
  | .mk _ [.ep i] => Option.some i
  | _ => Option.none

/-- `convert(const data&, ec&)` (lines 167-171): only an `enum_value`
converts, through its name. -/
def convert_data_ec : data → Option ec
  | .enum name => convert_string_ec name
  | _ => Option.none

/-- `convertible_to_ec(const data&)` (lines 173-176). -/
def convertible_to_ec (src : data) : Bool :=
  (convert_data_ec src).isSome

/-- The context test of `convertible_to_error` (line 189-190):
`is<none>(xs[2]) || contains<std::string>(xs[2]) ||
contains<endpoint_info, std::string>(xs[2])`. -/
def is_error_context (x : data) : Bool :=
  match x with
  | .nil => true
  | .vec [.str _] => true
  | .vec [e, .str _] => convertible_to_endpoint_info e
  | _ => false

/-- `convertible_to_error(const vector&)` (lines 178-191). -/
def convertible_to_error_vec (xs : List data) : Bool :=
  match xs with
  | [.str s₀, x₁, x₂] =>
    if convertible_to_ec x₁ then
      s₀ == "error" && is_error_context x₂
    else
      -- special case: default errors carry enum value "none", which does
      -- not convert to `ec` but is still legal
      match x₁, x₂ with
      | .enum name, .nil => s₀ == "error" && name == "none"
      | _, _ => false
  | _ => false

/-- `convertible_to_error(const data&)` (lines 193-197). -/
def convertible_to_error : data → Bool
  | .vec xs => convertible_to_error_vec xs
  | _ => false

/-- `convert(const error&, data&)` (lines 199-240): an invalid error becomes
`["error", enum "none", nil]`; a valid error becomes
`["error", enum name(code), C]` with `C` the encoded context. A context of
any other shape makes the conversion fail. -/
def error_to_data : error → Option data
  | .invalid =>
    Option.some (.vec [.str "error", .enum "none", .nil])
  | .mk code ctx =>
    match ctx with
    | [] =>
      Option.some (.vec [.str "error", .enum (to_string_ec code), .nil])
    | [.txt s] =>
      Option.some (.vec [.str "error", .enum (to_string_ec code),
                         .vec [.str s]])
    | [.ep i, .txt s] =>
      Option.some (.vec [.str "error", .enum (to_string_ec code),
                         .vec [endpoint_info_to_data i, .str s]])
    | _ => Option.none

/-- `convert(const data&, error&)` (lines 242-263): checks
`convertible_to_error` first, then rebuilds the error from the enum name
and the context slot. Branches unreachable under the convertibility guard
yield `none`. -/
def data_to_error (src : data) : Option error :=
  if convertible_to_error src then
    match src with
    | .vec [_, .enum name, x₂] =>
      if name = "none" then Option.some error.default
      else
        match convert_string_ec name with
        | Option.some code =>
          match x₂ with
          | .nil => Option.some (error.ofCode code)
          | .vec [.str s] => Option.some (error.ofCodeDesc code s)
          | .vec [e, .str s] =>
            match data_to_endpoint_info e with
            | Option.some info =>
              Option.some (error.ofCodeInfoDesc code info s)
            | Option.none => Option.none
          | _ => Option.none
        | Option.none => Option.none
    | _ => Option.none
  else Option.none

/-! ## Store actor (`src/src/detail/store_actor.cc`) -/

/-- Modelled from the spec: "Entity id. `(endpoint: endpoint_id, object:
actor_id)`. Absent-endpoint sentinel is `nil`" (§3); the type itself lives in
`entity_id.hh`, which is not under `src/`. The endpoint id is modelled as a
string, the actor id as a natural number. -/
inductive entity_id where
  | absent
  | mk (endpoint : String) (object : Nat)
deriving DecidableEq, Repr

/-- Modelled from the spec: `to<data>(x.endpoint)` — the conversion of an
endpoint id to `data`, not under `src/`; an endpoint id always has a data
(string) form, so the conversion is total, but the `Option` mirrors the
`if (auto ep = to<data>(x.endpoint))` test in `append`. -/
def endpoint_id_to_data (ep : String) : Option data :=
  Option.some (.str ep)

/-- `append(vector&, const T&)` (lines 21-24): one slot. -/
def append1 (xs : List data) (x : data) : List data :=
  xs ++ [x]

/-- `append(vector&, const std::optional<T>&)` (lines 26-32): one slot,
the value when present and `nil` when absent. -/
def append_optional_timespan (xs : List data) (x : Option Int) : List data :=
  match x with
  | Option.some t => xs ++ [.timespan t]
  | Option.none => xs ++ [.nil]

/-- `append(vector&, const entity_id&)` (lines 34-44): two slots — the
endpoint as data and the object id when the entity is present and its
endpoint converts, `nil, nil` otherwise. -/
def append_entity_id (xs : List data) (x : entity_id) : List data :=
  match x with
  | .mk ep obj =>
    match endpoint_id_to_data ep with
    | Option.some d => xs ++ [d, .count obj]
    | Option.none => xs ++ [.nil, .nil]
  | .absent => xs ++ [.nil, .nil]

/-- `store_actor_state::emit_insert_event` (lines 90-97): the event vector
published to `store_events/<store_name>`, built by
`fill_vector(xs, "insert", store_name, key, value, expiry, publisher)`. -/
def emit_insert_event (store_name : String) (key value : data)
    (expiry : Option Int) (publisher : entity_id) : List data :=
  append_entity_id
    (append_optional_timespan
      (append1 (append1 (append1 (append1 [] (.str "insert"))
        (.str store_name)) key) value)
      expiry)
    publisher

/-- `store_actor_state::emit_update_event` (lines 99-109). -/
def emit_update_event (store_name : String) (key old_value new_value : data)
    (expiry : Option Int) (publisher : entity_id) : List data :=
  append_entity_id
    (append_optional_timespan
      (append1 (append1 (append1 (append1 (append1 [] (.str "update"))
        (.str store_name)) key) old_value) new_value)
      expiry)
    publisher

/-- `store_actor_state::emit_erase_event` (lines 111-117). -/
def emit_erase_event (store_name : String) (key : data)
    (publisher : entity_id) : List data :=
  append_entity_id
    (append1 (append1 (append1 [] (.str "erase")) (.str store_name)) key)
    publisher

/-- `store_actor_state::emit_expire_event` (lines 119-125). -/
def emit_expire_event (store_name : String) (key : data)
    (publisher : entity_id) : List data :=
  append_entity_id
    (append1 (append1 (append1 [] (.str "expire")) (.str store_name)) key)
    publisher

/-- Outcome of `store_actor_state::on_down_msg`: whether the actor quit
(and with which reason), the pending-request table afterwards, and the
replies sent to requesters while handling the message. -/
structure down_effect where
  quit : Option error
  local_requests : List (Nat × Nat)
  replies : List Nat
deriving DecidableEq, Repr

/-- The while-loop of `on_down_msg` (lines 136-142): walks the
pending-request table and erases every entry whose next hop equals the
down message's source (`source == i->second.next()`). The table maps a
request id to the address of the requester (the response promise's next
hop); actor addresses are modelled as naturals. -/
def erase_matching_requests (source : Nat) :
    List (Nat × Nat) → List (Nat × Nat)
  | [] => []
  | kv :: rest =>
    if source = kv.2 then erase_matching_requests source rest
    else kv :: erase_matching_requests source rest

/-- `store_actor_state::on_down_msg` (lines 129-143): if the down
message's source is the core actor, the actor quits with the received
reason; otherwise the erase-loop runs and nothing is sent. -/
def on_down_msg (core : Nat) (local_requests : List (Nat × Nat))
    (source : Nat) (reason : error) : down_effect :=
  if source = core then
    ⟨Option.some reason, local_requests, []⟩
  else
    ⟨Option.none, erase_matching_requests source local_requests, []⟩

/-! ## Store frontend (`src/include/broker/store.hh`) -/

/-- Modelled from the spec: the `data::type` tag enumeration of the tagged
union of §3 (`data.hh`, not under `src/`). -/
inductive data_type where
  | none
  | boolean
  | count
  | integer
  | real
  | string
  | address
  | subnet
  | port
  | timestamp
  | timespan
  | enum_value
  | set
  | table
  | vector
deriving DecidableEq, Repr

/-- `data::get_type()`: the tag of a `data` value. -/
def data.get_type : data → data_type
  | .nil => .none
  | .boolean _ => .boolean
  | .count _ => .count
  | .integer _ => .integer
  | .real _ => .real
  | .str _ => .string
  | .address _ => .address
  | .subnet _ => .subnet
  | .port _ => .port
  | .timestamp _ => .timestamp
  | .timespan _ => .timespan
  | .enum _ => .enum_value
  | .set _ => .set
  | .table _ => .table
  | .vec _ => .vector

/-- The request a `store` modifier hands to the store actor. The private
`store::add` and `store::subtract` members send `atom::add` /
`atom::subtract` messages with exactly these fields; the public modifiers
are inline wrappers around them (`store.hh` lines 138-242). -/
inductive store_command where
  | put (key value : data) (expiry : Option Int)
  | erase (key : data)
  | clear
  | add (key value : data) (init_type : data_type) (expiry : Option Int)
  | subtract (key value : data) (expiry : Option Int)
deriving Repr

/-- `store::increment` (`store.hh` lines 158-180): chooses the
initialization type from the tag of `amount`, then calls `add`. -/
def store.increment (key amount : data) (expiry : Option Int) :
    store_command :=
  let init_type :=
    match amount.get_type with
    | .count => data_type.count
    | .integer => data_type.integer
    | .real => data_type.real
    | .timespan => data_type.timestamp
    | _ => data_type.none
  .add key amount init_type expiry

/-- `store::decrement` (lines 187-190): `subtract(key, amount, expiry)`. -/
def store.decrement (key amount : data) (expiry : Option Int) :
    store_command :=
  .subtract key amount expiry

/-- `store::append` (lines 196-198): `add(key, str, string, expiry)`. -/
def store.append (key str : data) (expiry : Option Int) : store_command :=
  .add key str .string expiry

/-- Two-argument `store::insert_into` (lines 204-207):
`add(key, index, set, expiry)`. -/
def store.insert_into (key index : data) (expiry : Option Int) :
    store_command :=
  .add key index .set expiry

/-- Three-argument `store::insert_into` (lines 214-218):
`add(key, vector({index, value}), table, expiry)`. -/
def store.insert_into_table (key index value : data) (expiry : Option Int) :
    store_command :=
  .add key (.vec [index, value]) .table expiry

/-- `store::remove_from` (lines 224-227): `subtract(key, index, expiry)`. -/
def store.remove_from (key index : data) (expiry : Option Int) :
    store_command :=
  .subtract key index expiry

/-- `store::push` (lines 233-235): `add(key, value, vector, expiry)`. -/
def store.push (key value : data) (expiry : Option Int) : store_command :=
  .add key value .vector expiry

/-- `store::pop` (lines 240-242): `subtract(key, key, expiry)` — the key
value itself is passed as the delta. -/
def store.pop (key : data) (expiry : Option Int) : store_command :=
  .subtract key key expiry

/-- Modelled from the spec: the backend `subtract` value operation of §4.1
— "numeric subtraction, timestamp−timespan, set/table element removal (by
key), vector pop-last (delta is typically the same container's key)";
the implementation lives in `data.cc`, which is not under `src/`. Fails
(`type_clash`) on an incompatible delta. -/
def subtract_data (target delta : data) : Option data :=
  match target, delta with
  | .count a, .count b => Option.some (.count (a - b))
  | .integer a, .integer b => Option.some (.integer (a - b))
  | .real a, .real b => Option.some (.real (a - b))
  | .timestamp t, .timespan d => Option.some (.timestamp (t - d))
  | .set xs, d => Option.some (.set (xs.filter (fun x => !(data.beq x d))))
  | .table es, d => Option.some (.table (es.filter (fun kv => !(data.beq kv.1 d))))
  | .vec xs, _ => Option.some (.vec xs.dropLast)
  | _, _ => Option.none

/-- The spec's encoding of an optional expiry (§4.5): "one slot, the
timespan value or `nil`". Stated from the spec's words, for comparison
with the vectors the store actor builds. -/
def expiry_slot : Option Int → data
  | Option.some t => .timespan t
  | Option.none => .nil

/-- The spec's encoding of a publisher entity id (§4.5): "two slots,
`(endpoint_as_data, object_id)`; if the entity is absent, both slots are
`nil`". Stated from the spec's words, for comparison with the vectors the
store actor builds. -/
def publisher_slots : entity_id → List data
  | .mk ep obj => [.str ep, .count obj]
  | .absent => [.nil, .nil]

/-! ## Supporting lemmas -/

/-- The erase-loop of `on_down_msg` keeps exactly the entries whose next
hop differs from the down message's source, in order. -/
theorem erase_matching_requests_eq_filter (source : Nat)
    (reqs : List (Nat × Nat)) :
    erase_matching_requests source reqs =
      reqs.filter (fun kv => kv.2 != source) := by
  induction reqs with
  | nil => rfl
  | cons kv rest ih =>
    by_cases h : source = kv.2
    · subst h
      simp [erase_matching_requests, ih, List.filter_cons]
    · simp [erase_matching_requests, ih, List.filter_cons, h, Ne.symm h,
            bne_iff_ne]

/-- Decoding an `endpoint_info` from data inverts the encoding. -/
theorem ep_decode_encode (d : data) (info : endpoint_info)
    (h : data_to_endpoint_info d = Option.some info) :
    endpoint_info_to_data info = d := by
  unfold data_to_endpoint_info at h
  split at h
  · cases h
    rfl
  · cases h

/-- Encoding an `endpoint_info` and decoding it yields the original. -/
theorem ep_encode_decode (info : endpoint_info) :
    data_to_endpoint_info (endpoint_info_to_data info) = Option.some info :=
  rfl

/-- A hit of `find_name` is an in-bounds index holding the sought name. -/
theorem find_name_get (ns : List String) (s : String) (i : Nat)
    (h : find_name ns s = Option.some i) :
    i < ns.length ∧ ns.get? i = Option.some s := by
  induction ns generalizing i with
  | nil => simp [find_name] at h
  | cons n ns ih =>
    by_cases hn : n = s
    · simp [find_name, hn] at h
      subst h
      simp [hn]
    · simp [find_name, hn, Option.map_eq_some'] at h
      obtain ⟨j, hj, rfl⟩ := h
      obtain ⟨hlt, hget⟩ := ih j hj
      refine ⟨by simpa using Nat.succ_lt_succ hlt, ?_⟩
      simpa using hget

/-- The name table has 21 entries. -/
theorem ec_names_length : ec_names.length = 21 := by decide

/-- For in-bounds indices, `ecOfIdx` inverts `ec.toNat`, and a nonzero
index never yields `ec::none`. -/
theorem ecOfIdx_spec : ∀ i, i < 21 →
    (ecOfIdx i).toNat = i ∧ (i ≠ 0 → ecOfIdx i ≠ ec.none) := by
  decide

/-- A successful `convert(string, ec)` never yields `ec::none`. -/
theorem convert_string_ec_ne_none (s : String) (c : ec)
    (h : convert_string_ec s = Option.some c) : c ≠ ec.none := by
  unfold convert_string_ec at h
  cases hf : find_name ec_names s with
  | none => simp [hf] at h
  | some i =>
    rw [hf] at h
    by_cases hi : i = 0
    · simp [hi] at h
    · simp [hi] at h
      obtain ⟨hlt, -⟩ := find_name_get ec_names s i hf
      rw [ec_names_length] at hlt
      exact h ▸ (ecOfIdx_spec i hlt).2 hi

/-- `to_string(ec)` is a left inverse of a successful
`convert(string, ec)`. -/
theorem convert_to_string (s : String) (c : ec)
    (h : convert_string_ec s = Option.some c) : to_string_ec c = s := by
  unfold convert_string_ec at h
  cases hf : find_name ec_names s with
  | none => simp [hf] at h
  | some i =>
    rw [hf] at h
    by_cases hi : i = 0
    · simp [hi] at h
    · simp [hi] at h
      obtain ⟨hlt, hget⟩ := find_name_get ec_names s i hf
      rw [ec_names_length] at hlt
      rw [to_string_ec, ← h, (ecOfIdx_spec i hlt).1, hget]
      rfl

/-- `convert(string, ec)` recovers any code other than `ec::none` from its
name. -/
theorem to_string_convert (c : ec) (h : c ≠ ec.none) :
    convert_string_ec (to_string_ec c) = Option.some c := by
  cases c <;> first | exact absurd rfl h | decide

/-- No code other than `ec::none` is named `"none"`. -/
theorem to_string_ne_none (c : ec) (h : c ≠ ec.none) :
    to_string_ec c ≠ "none" := by
  cases c <;> first | exact absurd rfl h | decide

/-- A data value convertible to `ec` is an enum value whose name converts. -/
theorem convertible_to_ec_inv (x : data) (hx : convertible_to_ec x = true) :
    ∃ name code, x = data.enum name ∧
      convert_string_ec name = Option.some code := by
  cases x <;> simp [convertible_to_ec, convert_data_ec] at hx
  case enum name =>
    cases hc : convert_string_ec name with
    | none => rw [hc] at hx; exact absurd hx (by simp)
    | some code => exact ⟨name, code, rfl, hc⟩

/-- The name of a code other than `ec::none` is convertible back. -/
theorem convertible_to_ec_of_code (code : ec) (h : code ≠ ec.none) :
    convertible_to_ec (.enum (to_string_ec code)) = true := by
  simp [convertible_to_ec, convert_data_ec, to_string_convert code h]

/-- Every accepted vector is the encoding of a well-formed error. -/
theorem convertible_accepts_only_encodings (v : data)
    (hv : convertible_to_error v = true) :
    ∃ e, error.wf e = true ∧ error_to_data e = Option.some v := by
  cases v <;> simp [convertible_to_error] at hv
  case vec xs =>
  unfold convertible_to_error_vec at hv
  split at hv
  case h_2 => exact absurd hv (by simp)
  case h_1 s₀ x₁ x₂ =>
  split at hv
  case isTrue hc =>
    obtain ⟨name, code, rfl, hcode⟩ := convertible_to_ec_inv x₁ hc
    simp only [Bool.and_eq_true, beq_iff_eq] at hv
    obtain ⟨rfl, hctx⟩ := hv
    have hcn : code ≠ ec.none := convert_string_ec_ne_none name code hcode
    have hts : to_string_ec code = name := convert_to_string name code hcode
    unfold is_error_context at hctx
    split at hctx
    · -- context is nil
      exact ⟨.mk code [], by simp [error.wf, bne_iff_ne, hcn],
        by simp [error_to_data, hts]⟩
    · -- context is a one-element vector [description]
      rename_i s
      exact ⟨.mk code [.txt s], by simp [error.wf, bne_iff_ne, hcn],
        by simp [error_to_data, hts]⟩
    · -- context is [endpoint_info_as_data, description]
      rename_i e₀ s
      obtain ⟨info, hinfo⟩ :=
        Option.isSome_iff_exists.mp (by simpa [convertible_to_endpoint_info]
          using hctx)
      refine ⟨.mk code [.ep info, .txt s],
        by simp [error.wf, bne_iff_ne, hcn], ?_⟩
      simp [error_to_data, hts, ep_decode_encode e₀ info hinfo]
    · exact absurd hctx (by simp)
  case isFalse hc =>
    split at hv
    case h_2 => exact absurd hv (by simp)
    case h_1 name =>
      simp only [Bool.and_eq_true, beq_iff_eq] at hv
      obtain ⟨rfl, rfl⟩ := hv
      exact ⟨.invalid, rfl, rfl⟩

/-- Every encoding of a well-formed error is accepted. -/
theorem convertible_accepts_encodings (e : error) (hw : error.wf e = true)
    (v : data) (he : error_to_data e = Option.some v) :
    convertible_to_error v = true := by
  cases e with
  | invalid =>
    cases he
    decide
  | mk code ctx =>
    cases ctx with
    | nil =>
      simp only [error.wf, bne_iff_ne, decide_eq_true_eq] at hw
      cases he
      simp [convertible_to_error, convertible_to_error_vec,
            convertible_to_ec_of_code code hw, is_error_context]
    | cons slot rest =>
      cases slot with
      | txt s =>
        cases rest with
        | nil =>
          simp only [error.wf, bne_iff_ne, decide_eq_true_eq] at hw
          cases he
          simp [convertible_to_error, convertible_to_error_vec,
                convertible_to_ec_of_code code hw, is_error_context]
        | cons _ _ => simp [error.wf] at hw
      | ep info =>
        cases rest with
        | nil => simp [error.wf] at hw
        | cons slot₂ rest₂ =>
          cases slot₂ with
          | txt s =>
            cases rest₂ with
            | nil =>
              simp only [error.wf, bne_iff_ne, decide_eq_true_eq] at hw
              cases he
              obtain ⟨node⟩ := info
              simp [convertible_to_error, convertible_to_error_vec,
                    convertible_to_ec_of_code code hw, is_error_context,
                    endpoint_info_to_data, convertible_to_endpoint_info,
                    data_to_endpoint_info]
            | cons _ _ => simp [error.wf] at hw
          | ep _ => simp [error.wf] at hw

/-- Decoding the encoding of a context-free error. -/
theorem rt_empty (code : ec) (h : code ≠ ec.none) :
    data_to_error (.vec [.str "error", .enum (to_string_ec code), .nil]) =
      Option.some (.mk code []) := by
  cases code <;> first | exact absurd rfl h | rfl

/-- Decoding the encoding of an error with a description context. -/
theorem rt_desc (code : ec) (h : code ≠ ec.none) (s : String) :
    data_to_error (.vec [.str "error", .enum (to_string_ec code),
        .vec [.str s]]) =
      Option.some (.mk code [.txt s]) := by
  cases code <;> first | exact absurd rfl h | rfl

/-- Decoding the encoding of an error with an `(endpoint_info,
description)` context. -/
theorem rt_full (code : ec) (h : code ≠ ec.none) (node s : String) :
    data_to_error (.vec [.str "error", .enum (to_string_ec code),
        .vec [.vec [.str node], .str s]]) =
      Option.some (.mk code [.ep ⟨node⟩, .txt s]) := by
  cases code <;> first | exact absurd rfl h | rfl

/-! ## Claim theorems -/

/-- C1: for every error `e` reachable through the public constructors,
converting `e` to its data representation and back yields `e` again —
including the kind, the optional description string and the optional
`endpoint_info` context. -/
theorem error_data_roundtrip (e : error) (h : error.wf e = true) :
    (error_to_data e).bind data_to_error = Option.some e := by
  cases e with
  | invalid => decide
  | mk code ctx =>
    cases ctx with
    | nil =>
      simp only [error.wf, bne_iff_ne, decide_eq_true_eq] at h
      simpa [error_to_data, Option.bind] using rt_empty code h
    | cons slot rest =>
      cases slot with
      | txt s =>
        cases rest with
        | nil =>
          simp only [error.wf, bne_iff_ne, decide_eq_true_eq] at h
          simpa [error_to_data, Option.bind] using rt_desc code h s
        | cons _ _ => simp [error.wf] at h
      | ep i =>
        cases rest with
        | nil => simp [error.wf] at h
        | cons slot₂ rest₂ =>
          cases slot₂ with
          | txt s =>
            cases rest₂ with
            | nil =>
              simp only [error.wf, bne_iff_ne, decide_eq_true_eq] at h
              obtain ⟨node⟩ := i
              simpa [error_to_data, Option.bind, endpoint_info_to_data]
                using rt_full code h node s
            | cons _ _ => simp [error.wf] at h
          | ep _ => simp [error.wf] at h

/-- Witness for C1 at a concrete error carrying both an `endpoint_info`
and a description. -/
theorem error_data_roundtrip_witness :
    error.wf (.mk .peer_timeout [.ep ⟨"node-1"⟩, .txt "oops"]) = true ∧
    (error_to_data
        (.mk .peer_timeout [.ep ⟨"node-1"⟩, .txt "oops"])).bind
        data_to_error =
      Option.some (.mk .peer_timeout [.ep ⟨"node-1"⟩, .txt "oops"]) :=
  ⟨by decide,
   error_data_roundtrip (.mk .peer_timeout [.ep ⟨"node-1"⟩, .txt "oops"])
     (by decide)⟩

/-- C10: for every error constructed with a (non-`none`) kind, an
`endpoint_info` and a description string, `error::message()` returns the
description but `error::context()` returns `nullptr`; indeed
`error::context()` is null on every error reachable through the public
constructors, because it matches only a native context of exactly one
`endpoint_info` element with no description — a shape no public
constructor produces. -/
theorem error_message_context (code : ec) (info : endpoint_info)
    (desc : String) (h : code ≠ ec.none) :
    error.message (error.ofCodeInfoDesc code info desc) =
      Option.some desc ∧
    error.context (error.ofCodeInfoDesc code info desc) = Option.none ∧
    (∀ e : error, error.wf e = true → error.context e = Option.none) := by
  refine ⟨?_, ?_, ?_⟩
  · simp [error.ofCodeInfoDesc, h, error.message]
  · simp [error.ofCodeInfoDesc, h, error.context]
  · intro e hw
    cases e with
    | invalid => rfl
    | mk c ctx =>
      cases ctx with
      | nil => rfl
      | cons slot rest =>
        cases slot with
        | txt s => cases rest <;> rfl
        | ep i =>
          cases rest with
          | nil => simp [error.wf] at hw
          | cons slot₂ rest₂ => rfl

/-- Witness for C10 at a concrete kind, endpoint and description. -/
theorem error_message_context_witness :
    ec.no_such_key ≠ ec.none ∧
    error.message
        (error.ofCodeInfoDesc .no_such_key ⟨"node-1"⟩ "missing") =
      Option.some "missing" ∧
    error.context
        (error.ofCodeInfoDesc .no_such_key ⟨"node-1"⟩ "missing") =
      Option.none :=
  ⟨by decide,
   (error_message_context .no_such_key ⟨"node-1"⟩ "missing" (by decide)).1,
   (error_message_context .no_such_key ⟨"node-1"⟩ "missing"
     (by decide)).2.1⟩

/-- C2: the data representation of an error is the 3-slot vector
`["error", enum_value(kind_name), context]` where the context is `nil` for
no context, `[description]` for a description alone, and
`[endpoint_info_as_data, description]` for both; an invalid (empty) error
is encoded with enum value `"none"`; and `convertible_to_error` accepts
exactly these shapes (the encodings of well-formed errors). -/
theorem error_data_encoding :
    error_to_data error.invalid =
      Option.some (.vec [.str "error", .enum "none", .nil]) ∧
    (∀ code, error_to_data (.mk code []) =
      Option.some (.vec [.str "error", .enum (to_string_ec code), .nil])) ∧
    (∀ code s, error_to_data (.mk code [.txt s]) =
      Option.some (.vec [.str "error", .enum (to_string_ec code),
        .vec [.str s]])) ∧
    (∀ code info s, error_to_data (.mk code [.ep info, .txt s]) =
      Option.some (.vec [.str "error", .enum (to_string_ec code),
        .vec [endpoint_info_to_data info, .str s]])) ∧
    (∀ v, convertible_to_error v = true ↔
      ∃ e, error.wf e = true ∧ error_to_data e = Option.some v) :=
  ⟨rfl, fun _ => rfl, fun _ _ => rfl, fun _ _ _ => rfl, fun v =>
    ⟨fun hv => convertible_accepts_only_encodings v hv,
     fun ⟨e, hw, he⟩ => convertible_accepts_encodings e hw v he⟩⟩

/-- C3: for every key, value, optional expiry and publisher, the store
actor's emitted event vectors have exactly the published layouts —
`["insert", store_name, key, value, expiry-or-nil, publisher-slots]`,
`["update", store_name, key, old_value, new_value, expiry-or-nil,
publisher-slots]`, `["erase", store_name, key, publisher-slots]` and
`["expire", store_name, key, publisher-slots]` — where the optional expiry
occupies exactly one slot (the timespan value when present, `nil` when
absent). -/
theorem store_event_layouts (store_name : String) (k v ov nv : data)
    (exp : Option Int) (pub : entity_id) :
    emit_insert_event store_name k v exp pub =
      [.str "insert", .str store_name, k, v, expiry_slot exp]
        ++ publisher_slots pub ∧
    emit_update_event store_name k ov nv exp pub =
      [.str "update", .str store_name, k, ov, nv, expiry_slot exp]
        ++ publisher_slots pub ∧
    emit_erase_event store_name k pub =
      [.str "erase", .str store_name, k] ++ publisher_slots pub ∧
    emit_expire_event store_name k pub =
      [.str "expire", .str store_name, k] ++ publisher_slots pub := by
  cases exp <;> cases pub <;>
    simp [emit_insert_event, emit_update_event, emit_erase_event,
          emit_expire_event, append1, append_optional_timespan,
          append_entity_id, endpoint_id_to_data, expiry_slot,
          publisher_slots]

/-- C4: in every event vector, the publisher entity id occupies exactly two
slots — `(endpoint_as_data, object_id)` when the entity is present and its
endpoint converts to data, and `nil, nil` when the entity is absent. -/
theorem publisher_entity_id_slots :
    (∀ (xs : List data) (ep : String) (obj : Nat) (d : data),
      endpoint_id_to_data ep = Option.some d →
      append_entity_id xs (.mk ep obj) = xs ++ [d, .count obj]) ∧
    (∀ xs : List data,
      append_entity_id xs .absent = xs ++ [.nil, .nil]) ∧
    (∀ (xs : List data) (p : entity_id),
      (append_entity_id xs p).length = xs.length + 2) := by
  refine ⟨?_, fun xs => rfl, ?_⟩
  · intro xs ep obj d h
    simp [append_entity_id, endpoint_id_to_data] at h ⊢
    simp [← h]
  · intro xs p
    cases p <;> simp [append_entity_id, endpoint_id_to_data]

/-- Witness for C4 at a concrete entity. -/
theorem publisher_entity_id_slots_witness :
    endpoint_id_to_data "node-1" = Option.some (.str "node-1") ∧
    append_entity_id [] (.mk "node-1" 7) = [.str "node-1", .count 7] :=
  ⟨rfl, by
    simpa using
      publisher_entity_id_slots.1 [] "node-1" 7 (.str "node-1") rfl⟩

/-- C5: on a down message, if the source is the core actor the store actor
quits with the very error reason it received; otherwise it erases exactly
the pending requests whose next hop equals the source (keeping all others)
and sends no reply. -/
theorem on_down_msg_behavior (core source : Nat)
    (reqs : List (Nat × Nat)) (reason : error) :
    on_down_msg core reqs source reason =
      if source = core then ⟨Option.some reason, reqs, []⟩
      else ⟨Option.none, reqs.filter (fun kv => kv.2 != source), []⟩ := by
  by_cases h : source = core
  · simp [on_down_msg, h]
  · simp [on_down_msg, h, erase_matching_requests_eq_filter]

/-- C6: `store::pop(k, e)` invokes the subtract modifier as
`subtract(k, k, e)`, passing the key value itself as the delta; under the
spec's subtract semantics for vectors (pop-last, the delta being ignored),
it therefore removes the last element of the vector stored under `k`. -/
theorem pop_is_subtract_key_key (k : data) (e : Option Int) :
    store.pop k e = .subtract k k e ∧
    (∀ xs : List data,
      subtract_data (.vec xs) k = Option.some (.vec xs.dropLast)) :=
  ⟨rfl, fun _ => rfl⟩

/-- C7: `store::increment(k, a, e)` calls `add(k, a, init_type, e)` with
`init_type` `count` for a count, `integer` for an integer, `real` for a
real, `timestamp` for a timespan, and `none` for any other type of `a`. -/
theorem increment_init_type (k : data) (e : Option Int) :
    (∀ n, store.increment k (.count n) e = .add k (.count n) .count e) ∧
    (∀ i, store.increment k (.integer i) e =
      .add k (.integer i) .integer e) ∧
    (∀ r, store.increment k (.real r) e = .add k (.real r) .real e) ∧
    (∀ d, store.increment k (.timespan d) e =
      .add k (.timespan d) .timestamp e) ∧
    (∀ a : data, a.get_type ≠ .count → a.get_type ≠ .integer →
      a.get_type ≠ .real → a.get_type ≠ .timespan →
      store.increment k a e = .add k a .none e) := by
  refine ⟨fun n => rfl, fun i => rfl, fun r => rfl, fun d => rfl, ?_⟩
  intro a h₁ h₂ h₃ h₄
  cases a <;> first
    | rfl
    | exact absurd rfl h₁
    | exact absurd rfl h₂
    | exact absurd rfl h₃
    | exact absurd rfl h₄

/-- Witness for C7 at a value outside the four numeric cases. -/
theorem increment_init_type_witness :
    data.get_type (.str "x") ≠ .count ∧
    store.increment (.str "k") (.str "x") Option.none =
      .add (.str "k") (.str "x") .none Option.none :=
  ⟨by decide,
   (increment_init_type (.str "k") Option.none).2.2.2.2 (.str "x")
     (by decide) (by decide) (by decide) (by decide)⟩

/-- C8: the three-argument `store::insert_into(k, i, v, e)` calls
`add(k, delta, table, e)` with `delta` the 2-element vector `[i, v]`. -/
theorem insert_into_table_delta (k i v : data) (e : Option Int) :
    store.insert_into_table k i v e = .add k (.vec [i, v]) .table e ∧
    (data.vec [i, v]).get_type = .vector ∧
    [i, v].length = 2 :=
  ⟨rfl, rfl, rfl⟩

/-- C9: every `ec` code other than `ec::none` round-trips through its name
(`convert(to_string(c)) = c`); the name of `ec::none` is the string
`"none"`, yet `convert` rejects it (the match at index 0 is excluded), so
no string at all converts to `ec::none`. -/
theorem ec_name_roundtrip :
    (∀ c : ec, convert_string_ec (to_string_ec c) =
      if c = ec.none then Option.none else Option.some c) ∧
    to_string_ec ec.none = "none" ∧
    (∀ s : String,
      (convert_string_ec s).all (fun c => c != ec.none) = true) := by
  refine ⟨?_, rfl, ?_⟩
  · intro c
    by_cases h : c = ec.none
    · subst h
      decide
    · rw [if_neg h]
      exact to_string_convert c h
  · intro s
    cases h : convert_string_ec s with
    | none => rfl
    | some c =>
      have := convert_string_ec_ne_none s c h
      simp [Option.all, bne_iff_ne, this]

end Broker
